import Mathlib

/-!
Verification development for the Luckee NFT ledger (CosmWasm contract).

The definitions below are a shallow embedding of the contract's source:
`src/state.rs` (storage layout), `src/types.rs` (data types),
`src/helpers.rs` (helper functions), `src/luckee.rs` (mint / burn /
synthesize / batch mint / recipe and minter administration),
`src/cw721.rs` (transfer, approvals, queries) and `src/contract.rs`
(instantiation), together with `src/recipes.rs` (default recipe seed data).

Machine integers (`u64`) are modelled as `Nat` with explicit checked
arithmetic against `2^64 - 1`; the one unchecked `u64` addition in the
source (`total_supply += 1` in `execute_batch_mint`) is modelled as a
wrapping addition modulo `2^64`, which is what a release-mode wasm build
does.  Addresses are modelled as plain strings; the host-supplied
`api.addr_validate` belongs to the external collaborator boundary and is
modelled as always succeeding.  `cw_storage_plus` maps are modelled as
association lists whose insert removes any previous binding of the key;
the one map whose range-scan order is observable through the claims
(`ALL_TOKENS`) is modelled as an ascending sorted list of ids.
-/

deriving instance DecidableEq for Except

namespace Luckee

/-- Largest value of a `u64`. -/
def U64MAX : Nat := 2 ^ 64 - 1

/-- Rust `u64::checked_add` on the `Nat` model. -/
def checkedAdd (a b : Nat) : Option Nat :=
  if a + b ≤ U64MAX then some (a + b) else none

/-- Rust `u64::checked_sub` on the `Nat` model. -/
def checkedSub (a b : Nat) : Option Nat :=
  if b ≤ a then some (a - b) else none

/-- The nine ranked NFT kinds (`types.rs`, `enum NftKind`). -/
inductive NftKind
  | clover
  | firefly
  | crimsonKoi
  | magicalLamp
  | fatesSpindle
  | sage
  | polaris
  | wheelOfDestiny
  | genesis
deriving DecidableEq

/-- String key of a kind (`NftKind::to_key`, the stable debug name). -/
def NftKind.toKey : NftKind → String
  | .clover => "Clover"
  | .firefly => "Firefly"
  | .crimsonKoi => "CrimsonKoi"
  | .magicalLamp => "MagicalLamp"
  | .fatesSpindle => "FatesSpindle"
  | .sage => "Sage"
  | .polaris => "Polaris"
  | .wheelOfDestiny => "WheelOfDestiny"
  | .genesis => "Genesis"

/-- Blind-box scales (`types.rs`, `enum Scale`). -/
inductive Scale
  | tiny
  | small
  | medium
  | large
  | huge
deriving DecidableEq

/-- Token metadata (`types.rs`, `struct NftMeta`). -/
structure NftMeta where
  kind : NftKind
  scale_origin : Scale
  physical_sku : Option String
  crafted_from : Option (List Nat)
  series_id : String
  collection_group_id : Option String
  serial_in_series : Nat
deriving DecidableEq

/-- One required input line of a recipe (`types.rs`, `struct RecipeInput`). -/
structure RecipeInput where
  nft_kind : NftKind
  count : Nat
deriving DecidableEq

/-- Native coin (`cosmwasm_std::Coin`), used only as an opaque recipe cost. -/
structure Coin where
  denom : String
  amount : Nat
deriving DecidableEq

/-- Synthesis recipe (`types.rs`, `struct Recipe`). -/
structure Recipe where
  inputs : List RecipeInput
  output : NftKind
  cost : Option Coin
deriving DecidableEq

/-- Expiry bounds of an approval (`state.rs`, `struct Expiration`). -/
structure Expiration where
  at_height : Option Nat
  at_time : Option Nat
deriving DecidableEq

/-- Per-token approval entry (`state.rs`, `struct Approval`). -/
structure Approval where
  spender : String
  expires : Option Expiration
deriving DecidableEq

/-- Execution context: current block height and block time in seconds
(the only parts of `cosmwasm_std::Env` the contract reads). -/
structure Env where
  height : Nat
  time : Nat
deriving DecidableEq

/-- Expiry test (`state.rs`, `Expiration::is_expired`): expired when either
present bound has been reached. -/
def Expiration.is_expired (e : Expiration) (env : Env) : Bool :=
  (match e.at_height with
   | some h => decide (h ≤ env.height)
   | none => false) ||
  (match e.at_time with
   | some t => decide (t ≤ env.time)
   | none => false)

/-- Expiration in the standard cw721 response format. -/
inductive Cw721Expiration
  | atHeight (h : Nat)
  | atTime (t : Nat)
  | never
deriving DecidableEq

/-- Approval entry in the standard cw721 response format. -/
structure Cw721Approval where
  spender : String
  expires : Cw721Expiration
deriving DecidableEq

/-- Conversion of a stored approval to the cw721 response format, as in the
response-building closures of `cw721.rs`. -/
def toCw721Approval (a : Approval) : Cw721Approval :=
  { spender := a.spender
    expires :=
      match a.expires with
      | none => .never
      | some e =>
        match e.at_height with
        | some h => .atHeight h
        | none =>
          match e.at_time with
          | some t => .atTime t
          | none => .never }

/-- Contract configuration (`state.rs`, `struct Config`). -/
structure Config where
  name : String
  symbol : String
  minter : String
  base_uri : Option String
  owner : String
deriving DecidableEq

/-- One item of a batch mint (`msg.rs`, `struct BatchMintItem`). -/
structure BatchMintItem where
  token_id : Nat
  owner : String
  extension : NftMeta
deriving DecidableEq

/-- Synthesis audit record (`state.rs`, `struct SynthesisRecord`). -/
structure SynthesisRecord where
  user : String
  inputs : List Nat
  output : Nat
  timestamp : Nat
deriving DecidableEq

/-- Standard CosmWasm-level storage errors surfaced through `ContractError::Std`. -/
inductive StdError
  | notFound (what : String)
  | genericErr (msg : String)
deriving DecidableEq

/-- Contract error type (`error.rs`, the variants this core can produce). -/
inductive ContractError
  | Std (e : StdError)
  | Unauthorized
  | TokenNotFound
  | TokenAlreadyExists
  | NotOwned
  | Overflow
  | ContractPaused
  | TooManyTokens (count : Nat)
  | TooManyInputs (count : Nat)
  | InsufficientInputTokens
  | RecipeNotFound
  | MinterNotAuthorized
deriving DecidableEq

/-- Lookup in an association-list model of a `cw_storage_plus::Map`. -/
def slLookup {κ α : Type} [DecidableEq κ] (k : κ) : List (κ × α) → Option α
  | [] => none
  | (k', v) :: t => if k = k' then some v else slLookup k t

/-- Insert into an association-list map, replacing any previous binding. -/
def slInsert {κ α : Type} [DecidableEq κ] (k : κ) (v : α) (l : List (κ × α)) :
    List (κ × α) :=
  (k, v) :: l.filter (fun p => p.1 ≠ k)

/-- Remove a key from an association-list map. -/
def slRemove {κ α : Type} [DecidableEq κ] (k : κ) (l : List (κ × α)) :
    List (κ × α) :=
  l.filter (fun p => p.1 ≠ k)

/-- Insert an id into the ascending `ALL_TOKENS` list (idempotent, keeps order:
this mirrors `Map<u64, ()>::save`, whose range scan enumerates keys ascending). -/
def insertId (k : Nat) : List Nat → List Nat
  | [] => [k]
  | k' :: t =>
    if k < k' then k :: k' :: t
    else if k = k' then k' :: t
    else k' :: insertId k t

/-- Sorted insertion used to model Rust's `Vec::sort` on owner index lists. -/
def insSorted (x : Nat) : List Nat → List Nat
  | [] => [x]
  | y :: t => if x ≤ y then x :: y :: t else y :: insSorted x t

/-- Insertion sort on a list of ids (model of `Vec::<u64>::sort`). -/
def sortNat : List Nat → List Nat
  | [] => []
  | x :: t => insSorted x (sortNat t)

/-- Model of `tokens.push(id); tokens.sort();` in the owner-index helpers. -/
def pushSort (l : List Nat) (id : Nat) : List Nat :=
  sortNat (l ++ [id])

/-- Whole persisted ledger state: one field per storage item or map of
`state.rs` that the embedded operations read or write. -/
structure Ledger where
  config : Config
  token_meta : List (Nat × NftMeta)
  token_ownership : List (Nat × String)
  token_approvals : List (Nat × List Approval)
  operator_approvals : List ((String × String) × Expiration)
  tokens_by_owner : List (String × List Nat)
  all_tokens : List Nat
  total_supply : Nat
  next_token_id : Nat
  series_next_serial : List (String × Nat)
  recipes : List (String × Recipe)
  synthesis_history : List ((String × Nat) × SynthesisRecord)
  contract_paused : Bool
  allowed_minters : List (String × Bool)
deriving DecidableEq

/-- Pause gate (`helpers.rs`, `check_contract_paused`). -/
def check_contract_paused (s : Ledger) : Except ContractError Unit :=
  if s.contract_paused then .error .ContractPaused else .ok ()

/-- Host address validation (`deps.api.addr_validate`); the host API is an
external collaborator and is modelled as accepting every address string. -/
def addr_validate (a : String) : Except ContractError String :=
  .ok a

/-- Minter authorization (`helpers.rs`, `is_authorized_minter`): the
configured minter first, then the allowed-minters map with a `false` default. -/
def is_authorized_minter (s : Ledger) (sender : String) (config : Config) :
    Except ContractError Bool :=
  if sender = config.minter then .ok true
  else
    match slLookup sender s.allowed_minters with
    | some allowed => .ok allowed
    | none => .ok false

/-- Ownership check (`helpers.rs`, `verify_nft_ownership`): a missing
ownership record makes the underlying `load` fail with a storage error. -/
def verify_nft_ownership (s : Ledger) (token_id : Nat) (owner : String) :
    Except ContractError Bool :=
  match slLookup token_id s.token_ownership with
  | none => .error (.Std (.notFound "token owner"))
  | some o => .ok (o = owner)

/-- Character set accepted for series and collection-group ids. -/
def validIdChar (c : Char) : Bool :=
  c.isAlphanum || c = '_' || c = '-'

/-- Series-id validation (`helpers.rs`, `validate_series_id`). -/
def validate_series_id (sid : String) : Except ContractError Unit :=
  if sid.isEmpty then .error (.Std (.genericErr "Series ID cannot be empty"))
  else if sid.length > 100 then .error (.Std (.genericErr "Series ID too long"))
  else if !(sid.data.all validIdChar) then
    .error (.Std (.genericErr "Series ID contains invalid characters"))
  else .ok ()

/-- Collection-group-id validation (`helpers.rs`, `validate_collection_group_id`). -/
def validate_collection_group_id (gid : String) : Except ContractError Unit :=
  if gid.isEmpty then
    .error (.Std (.genericErr "Collection group ID cannot be empty"))
  else if gid.length > 100 then
    .error (.Std (.genericErr "Collection group ID too long"))
  else if !(gid.data.all validIdChar) then
    .error (.Std (.genericErr "Collection group ID contains invalid characters"))
  else .ok ()

/-- Approval purge (`helpers.rs`, `clear_token_approvals`). -/
def clear_token_approvals (s : Ledger) (token_id : Nat) : Ledger :=
  { s with token_approvals := slRemove token_id s.token_approvals }

/-- Owner-index insertion (`helpers.rs`, `add_token_to_owner`):
load-or-default, push, sort, save. -/
def add_token_to_owner (s : Ledger) (owner : String) (token_id : Nat) : Ledger :=
  let tokens := (slLookup owner s.tokens_by_owner).getD []
  { s with tokens_by_owner := slInsert owner (pushSort tokens token_id) s.tokens_by_owner }

/-- Owner-index removal (`helpers.rs`, `remove_token_from_owner`): retain all
other ids, delete the entry entirely when it becomes empty. -/
def remove_token_from_owner (s : Ledger) (owner : String) (token_id : Nat) : Ledger :=
  match slLookup owner s.tokens_by_owner with
  | none => s
  | some tokens =>
    let tokens' := tokens.filter (fun id => id ≠ token_id)
    if tokens'.isEmpty then
      { s with tokens_by_owner := slRemove owner s.tokens_by_owner }
    else
      { s with tokens_by_owner := slInsert owner tokens' s.tokens_by_owner }

/-- Owner-index transfer update (`helpers.rs`, `update_owner_tokens`):
remove from the old owner's list, then push-and-sort into the new owner's. -/
def update_owner_tokens (s : Ledger) (fromAddr toAddr : String) (token_id : Nat) :
    Ledger :=
  let s1 :=
    match slLookup fromAddr s.tokens_by_owner with
    | none => s
    | some tokens =>
      let tokens' := tokens.filter (fun id => id ≠ token_id)
      if tokens'.isEmpty then
        { s with tokens_by_owner := slRemove fromAddr s.tokens_by_owner }
      else
        { s with tokens_by_owner := slInsert fromAddr tokens' s.tokens_by_owner }
  let tokens := (slLookup toAddr s1.tokens_by_owner).getD []
  { s1 with tokens_by_owner := slInsert toAddr (pushSort tokens token_id) s1.tokens_by_owner }

/-- Maximum number of synthesis inputs (`luckee.rs`, `MAX_SYNTHESIS_INPUTS`). -/
def MAX_SYNTHESIS_INPUTS : Nat := 50

/-- Maximum batch mint size (`luckee.rs`, `MAX_BATCH_MINT`). -/
def MAX_BATCH_MINT : Nat := 100

/-- Validation loop of `validate_synthesis_inputs`: loads every input's
metadata once (caching it), failing on a missing token or wrong owner. -/
def collectInputMetas (s : Ledger) (sender : String) :
    List Nat → List (Nat × NftMeta) → Except ContractError (List (Nat × NftMeta))
  | [], acc => .ok acc
  | tid :: rest, acc =>
    match slLookup tid s.token_meta with
    | none => .error .TokenNotFound
    | some meta =>
      match verify_nft_ownership s tid sender with
      | .error e => .error e
      | .ok owned =>
        if !owned then .error .NotOwned
        else collectInputMetas s sender rest (slInsert tid meta acc)

/-- Synthesis input validation (`helpers.rs`, `validate_synthesis_inputs`). -/
def validate_synthesis_inputs (s : Ledger) (sender : String) (inputs : List Nat)
    (recipe : Recipe) : Except ContractError Unit :=
  if inputs.isEmpty then .error .InsufficientInputTokens
  else
    match collectInputMetas s sender inputs [] with
    | .error e => .error e
    | .ok input_metas =>
      if recipe.inputs.all (fun ri =>
          decide (ri.count ≤ (inputs.filter (fun tid =>
            match slLookup tid input_metas with
            | some meta => meta.kind = ri.nft_kind
            | none => false)).length))
      then .ok ()
      else .error .InsufficientInputTokens

/-- Mint (`luckee.rs`, `execute_mint`): pause gate, minter authorization,
address and id-format validation, duplicate check, forward adjustment of the
next-token-id allocator, writes, series serial and supply checked updates. -/
def execute_mint (s : Ledger) (sender : String) (token_id : Nat) (owner : String)
    (extension : NftMeta) : Except ContractError Ledger :=
  match check_contract_paused s with
  | .error e => .error e
  | .ok _ =>
  match is_authorized_minter s sender s.config with
  | .error e => .error e
  | .ok auth =>
  if !auth then .error .MinterNotAuthorized
  else
  match addr_validate owner with
  | .error e => .error e
  | .ok owner_addr =>
  match validate_series_id extension.series_id with
  | .error e => .error e
  | .ok _ =>
  match (match extension.collection_group_id with
         | some gid => validate_collection_group_id gid
         | none => (.ok () : Except ContractError Unit)) with
  | .error e => .error e
  | .ok _ =>
  if (slLookup token_id s.token_meta).isSome then .error .TokenAlreadyExists
  else
  match (if s.next_token_id ≤ token_id then
           match checkedAdd token_id 1 with
           | none => .error ContractError.Overflow
           | some nid => .ok { s with next_token_id := nid }
         else (.ok s : Except ContractError Ledger)) with
  | .error e => .error e
  | .ok s =>
  let s := { s with token_meta := slInsert token_id extension s.token_meta,
                    token_ownership := slInsert token_id owner_addr s.token_ownership }
  let s := add_token_to_owner s owner_addr token_id
  let s := { s with all_tokens := insertId token_id s.all_tokens }
  let next_serial := (slLookup extension.series_id s.series_next_serial).getD 0
  match checkedAdd next_serial 1 with
  | none => .error .Overflow
  | some new_serial =>
  let s := { s with series_next_serial :=
                      slInsert extension.series_id new_serial s.series_next_serial }
  match checkedAdd s.total_supply 1 with
  | none => .error .Overflow
  | some new_supply => .ok { s with total_supply := new_supply }

/-- Burn (`luckee.rs`, `execute_burn`): pause gate, existence and ownership
checks, deletion of metadata/ownership, approval purge, index removal and a
checked supply decrement. -/
def execute_burn (s : Ledger) (sender : String) (token_id : Nat) :
    Except ContractError Ledger :=
  match check_contract_paused s with
  | .error e => .error e
  | .ok _ =>
  match slLookup token_id s.token_meta with
  | none => .error .TokenNotFound
  | some _ =>
  match slLookup token_id s.token_ownership with
  | none => .error (.Std (.notFound "token owner"))
  | some owner =>
  if owner ≠ sender then .error .NotOwned
  else
  let s := { s with token_meta := slRemove token_id s.token_meta,
                    token_ownership := slRemove token_id s.token_ownership }
  let s := clear_token_approvals s token_id
  let s := remove_token_from_owner s owner token_id
  let s := { s with all_tokens := s.all_tokens.filter (fun x => x ≠ token_id) }
  match checkedSub s.total_supply 1 with
  | none => .error .Overflow
  | some new_supply => .ok { s with total_supply := new_supply }

/-- Transfer (`cw721.rs`, `execute_transfer_nft`): pause gate, owner check
(the ownership `load` on a missing record surfaces a storage error),
recipient validation, ownership rewrite, approval purge and owner-index
update. -/
def execute_transfer_nft (s : Ledger) (sender recipient : String) (token_id : Nat) :
    Except ContractError Ledger :=
  match check_contract_paused s with
  | .error e => .error e
  | .ok _ =>
  match slLookup token_id s.token_ownership with
  | none => .error (.Std (.notFound "token owner"))
  | some owner =>
  if owner ≠ sender then .error .NotOwned
  else
  match addr_validate recipient with
  | .error e => .error e
  | .ok recipient_addr =>
  let s := { s with token_ownership := slInsert token_id recipient_addr s.token_ownership }
  let s := clear_token_approvals s token_id
  .ok (update_owner_tokens s owner recipient_addr token_id)

/-- Approve (`cw721.rs`, `execute_approve`): owner-only, replaces any prior
approval for the same spender. -/
def execute_approve (s : Ledger) (sender spender : String) (token_id : Nat)
    (expires : Option Expiration) : Except ContractError Ledger :=
  match check_contract_paused s with
  | .error e => .error e
  | .ok _ =>
  match slLookup token_id s.token_ownership with
  | none => .error (.Std (.notFound "token owner"))
  | some owner =>
  if owner ≠ sender then .error .NotOwned
  else
  match addr_validate spender with
  | .error e => .error e
  | .ok spender_addr =>
  let approvals := (slLookup token_id s.token_approvals).getD []
  let approvals := approvals.filter (fun a => a.spender ≠ spender_addr)
  let approvals := approvals ++ [{ spender := spender_addr, expires := expires }]
  .ok { s with token_approvals := slInsert token_id approvals s.token_approvals }

/-- Operator approval (`cw721.rs`, `execute_approve_all`): a missing expiry is
stored as the record with no bounds ("never expires"). -/
def execute_approve_all (s : Ledger) (sender operator : String)
    (expires : Option Expiration) : Except ContractError Ledger :=
  match check_contract_paused s with
  | .error e => .error e
  | .ok _ =>
  match addr_validate operator with
  | .error e => .error e
  | .ok operator_addr =>
  let exp := expires.getD { at_height := none, at_time := none }
  .ok { s with operator_approvals :=
          slInsert (sender, operator_addr) exp s.operator_approvals }

/-- Consumption of one synthesis input inside `execute_synthesize`: delete
metadata and ownership, purge approvals, remove from the caller's owner index
and from the global index. -/
def consumeInput (sender : String) (s : Ledger) (tid : Nat) : Ledger :=
  let s := { s with token_meta := slRemove tid s.token_meta,
                    token_ownership := slRemove tid s.token_ownership }
  let s := clear_token_approvals s tid
  let s := remove_token_from_owner s sender tid
  { s with all_tokens := s.all_tokens.filter (fun x => x ≠ tid) }

/-- Synthesize (`luckee.rs`, `execute_synthesize`).  The source body refers to
a variable `total_supply` without a local binding at the supply-update step;
the only well-typed reading is the stored `TOTAL_SUPPLY` counter, which is
what this embedding uses. -/
def execute_synthesize (s : Ledger) (env : Env) (sender : String)
    (inputs : List Nat) (target : NftKind) : Except ContractError Ledger :=
  match check_contract_paused s with
  | .error e => .error e
  | .ok _ =>
  if MAX_SYNTHESIS_INPUTS < inputs.length then .error (.TooManyInputs inputs.length)
  else
  match slLookup target.toKey s.recipes with
  | none => .error .RecipeNotFound
  | some recipe =>
  match validate_synthesis_inputs s sender inputs recipe with
  | .error e => .error e
  | .ok _ =>
  match checkedAdd s.next_token_id 1 with
  | none => .error .Overflow
  | some nid =>
  let output_token_id := s.next_token_id
  let s := { s with next_token_id := nid }
  let output_meta : NftMeta :=
    { kind := target
      scale_origin := .tiny
      physical_sku := none
      crafted_from := some inputs
      series_id := "synthesis_" ++ toString env.time
      collection_group_id := none
      serial_in_series := 1 }
  let s := inputs.foldl (consumeInput sender) s
  let s := { s with token_meta := slInsert output_token_id output_meta s.token_meta,
                    token_ownership := slInsert output_token_id sender s.token_ownership }
  let s := add_token_to_owner s sender output_token_id
  let s := { s with all_tokens := insertId output_token_id s.all_tokens }
  let next_serial := (slLookup output_meta.series_id s.series_next_serial).getD 0
  match checkedAdd next_serial 1 with
  | none => .error .Overflow
  | some new_serial =>
  let s := { s with series_next_serial :=
                      slInsert output_meta.series_id new_serial s.series_next_serial }
  match (checkedAdd s.total_supply 1).bind (fun v => checkedSub v inputs.length) with
  | none => .error .Overflow
  | some new_total =>
  let s := { s with total_supply := new_total }
  let record : SynthesisRecord :=
    { user := sender, inputs := inputs, output := output_token_id, timestamp := env.time }
  .ok { s with synthesis_history :=
          slInsert (sender, env.time) record s.synthesis_history }

/-- Recipe installation (`luckee.rs`, `execute_set_recipe`): pause gate first,
then owner check, then save. -/
def execute_set_recipe (s : Ledger) (sender : String) (target : NftKind)
    (recipe : Recipe) : Except ContractError Ledger :=
  match check_contract_paused s with
  | .error e => .error e
  | .ok _ =>
  if s.config.owner ≠ sender then .error .Unauthorized
  else .ok { s with recipes := slInsert target.toKey recipe s.recipes }

/-- Recipe removal (`luckee.rs`, `execute_remove_recipe`): pause gate first,
then owner check, then delete. -/
def execute_remove_recipe (s : Ledger) (sender : String) (target : NftKind) :
    Except ContractError Ledger :=
  match check_contract_paused s with
  | .error e => .error e
  | .ok _ =>
  if s.config.owner ≠ sender then .error .Unauthorized
  else .ok { s with recipes := slRemove target.toKey s.recipes }

/-- Minter-allowance update (`luckee.rs`, `execute_set_minter`): pause gate
first, then owner check, then save the flag for the address. -/
def execute_set_minter (s : Ledger) (sender minter : String) (allowed : Bool) :
    Except ContractError Ledger :=
  match check_contract_paused s with
  | .error e => .error e
  | .ok _ =>
  if s.config.owner ≠ sender then .error .Unauthorized
  else
  match addr_validate minter with
  | .error e => .error e
  | .ok minter_addr =>
  .ok { s with allowed_minters := slInsert minter_addr allowed s.allowed_minters }

/-- Duplicate pre-scan of `execute_batch_mint`: a `BTreeSet` insert detecting
in-batch duplicates, then an existence check against stored metadata. -/
def preScanBatch (s : Ledger) : List BatchMintItem → List Nat →
    Except ContractError Unit
  | [], _ => .ok ()
  | item :: rest, seen =>
    if item.token_id ∈ seen then .error .TokenAlreadyExists
    else if (slLookup item.token_id s.token_meta).isSome then .error .TokenAlreadyExists
    else preScanBatch s rest (item.token_id :: seen)

/-- Per-item body of the `execute_batch_mint` loop (validations, allocator
adjustment, writes, series serial update; the local supply accumulator is
tracked by the caller). -/
def batchMintItemStep (s : Ledger) (item : BatchMintItem) :
    Except ContractError Ledger :=
  match addr_validate item.owner with
  | .error e => .error e
  | .ok owner_addr =>
  match validate_series_id item.extension.series_id with
  | .error e => .error e
  | .ok _ =>
  match (match item.extension.collection_group_id with
         | some gid => validate_collection_group_id gid
         | none => (.ok () : Except ContractError Unit)) with
  | .error e => .error e
  | .ok _ =>
  match (if s.next_token_id ≤ item.token_id then
           match checkedAdd item.token_id 1 with
           | none => .error ContractError.Overflow
           | some nid => .ok { s with next_token_id := nid }
         else (.ok s : Except ContractError Ledger)) with
  | .error e => .error e
  | .ok s =>
  let s := { s with token_meta := slInsert item.token_id item.extension s.token_meta,
                    token_ownership := slInsert item.token_id owner_addr s.token_ownership }
  let s := add_token_to_owner s owner_addr item.token_id
  let s := { s with all_tokens := insertId item.token_id s.all_tokens }
  let next_serial := (slLookup item.extension.series_id s.series_next_serial).getD 0
  match checkedAdd next_serial 1 with
  | none => .error .Overflow
  | some new_serial =>
  .ok { s with series_next_serial :=
                 slInsert item.extension.series_id new_serial s.series_next_serial }

/-- The `for mint_item in mints` loop of `execute_batch_mint`. -/
def batchMintLoop (s : Ledger) : List BatchMintItem → Except ContractError Ledger
  | [] => .ok s
  | item :: rest =>
    match batchMintItemStep s item with
    | .error e => .error e
    | .ok s' => batchMintLoop s' rest

/-- Batch mint (`luckee.rs`, `execute_batch_mint`).  The loop increments a
local copy of the supply once per item with an unchecked (wrapping in a
release wasm build) `+= 1`, and the final save adds the item count again
with `checked_add` — so the stored supply grows by twice the batch size. -/
def execute_batch_mint (s : Ledger) (sender : String) (mints : List BatchMintItem) :
    Except ContractError Ledger :=
  match check_contract_paused s with
  | .error e => .error e
  | .ok _ =>
  match is_authorized_minter s sender s.config with
  | .error e => .error e
  | .ok auth =>
  if !auth then .error .MinterNotAuthorized
  else
  if MAX_BATCH_MINT < mints.length then .error (.TooManyTokens mints.length)
  else
  let mint_count := mints.length
  match preScanBatch s mints [] with
  | .error e => .error e
  | .ok _ =>
  match batchMintLoop s mints with
  | .error e => .error e
  | .ok s' =>
  let local_supply := (s.total_supply + mint_count) % 2 ^ 64
  match checkedAdd local_supply mint_count with
  | none => .error .Overflow
  | some new_total => .ok { s' with total_supply := new_total }

/-- Token list of the all-tokens query (`cw721.rs`, `query_all_tokens`):
ascending scan, a `skip_while` over ids at most the cursor, then an
additional `skip(1)` whenever a cursor was supplied, then the page limit. -/
def query_all_tokens (s : Ledger) (start_after : Option Nat) (limit : Option Nat) :
    List Nat :=
  let lim := min (limit.getD 30) 30
  let start := start_after.getD 0
  (((s.all_tokens.dropWhile (fun id => decide (id ≤ start))).drop
      (if start_after.isSome then 1 else 0)).take lim)

/-- Token list of the per-owner query (`cw721.rs`, `query_tokens`): the
owner's stored sorted list with the same cursor handling as `query_all_tokens`. -/
def query_tokens (s : Ledger) (owner : String) (start_after : Option Nat)
    (limit : Option Nat) : Except ContractError (List Nat) :=
  match addr_validate owner with
  | .error e => .error e
  | .ok owner_addr =>
  let lim := min (limit.getD 30) 30
  let tokens := (slLookup owner_addr s.tokens_by_owner).getD []
  .ok (((tokens.dropWhile (fun tid =>
          match start_after with
          | some st => decide (tid ≤ st)
          | none => false)).drop
        (if start_after.isSome then 1 else 0)).take lim)

/-- Approvals query (`cw721.rs`, `query_approvals`): fails when the token has
no owner record, otherwise returns the (optionally expiry-filtered) entries
in the cw721 response format. -/
def query_approvals (s : Ledger) (env : Env) (token_id : Nat)
    (include_expired : Option Bool) : Except ContractError (List Cw721Approval) :=
  match slLookup token_id s.token_ownership with
  | none => .error (.Std (.notFound "token owner"))
  | some _ =>
  let approvals := (slLookup token_id s.token_approvals).getD []
  let valid :=
    if include_expired.getD false then approvals
    else approvals.filter (fun a =>
      !(match a.expires with
        | some e => e.is_expired env
        | none => false))
  .ok (valid.map toCw721Approval)

/-- Operator-approval query (`cw721.rs`, `query_is_approved_for_all`): both
branches of the response construction build the identical approval record. -/
def query_is_approved_for_all (s : Ledger) (env : Env) (owner operator : String) :
    Except ContractError Cw721Approval :=
  match addr_validate owner with
  | .error e => .error e
  | .ok owner_addr =>
  match addr_validate operator with
  | .error e => .error e
  | .ok operator_addr =>
  let expiration := slLookup (owner_addr, operator_addr) s.operator_approvals
  let approved :=
    match expiration with
    | some exp => !(exp.is_expired env)
    | none => false
  .ok (if approved then { spender := operator, expires := Cw721Expiration.never }
       else { spender := operator, expires := Cw721Expiration.never })

/-- Default recipe chain installed at instantiation (`recipes.rs`,
`initialize_default_recipes`), in storage order. -/
def defaultRecipes : List (String × Recipe) :=
  slInsert NftKind.genesis.toKey
    { inputs := [{ nft_kind := .wheelOfDestiny, count := 10 }], output := .genesis, cost := none }
    (slInsert NftKind.wheelOfDestiny.toKey
      { inputs := [{ nft_kind := .polaris, count := 10 }], output := .wheelOfDestiny, cost := none }
      (slInsert NftKind.polaris.toKey
        { inputs := [{ nft_kind := .sage, count := 10 }], output := .polaris, cost := none }
        (slInsert NftKind.sage.toKey
          { inputs := [{ nft_kind := .fatesSpindle, count := 10 }], output := .sage, cost := none }
          (slInsert NftKind.fatesSpindle.toKey
            { inputs := [{ nft_kind := .magicalLamp, count := 10 }], output := .fatesSpindle, cost := none }
            (slInsert NftKind.magicalLamp.toKey
              { inputs := [{ nft_kind := .crimsonKoi, count := 5 }], output := .magicalLamp, cost := none }
              (slInsert NftKind.crimsonKoi.toKey
                { inputs := [{ nft_kind := .firefly, count := 2 }], output := .crimsonKoi, cost := none }
                (slInsert NftKind.firefly.toKey
                  { inputs := [{ nft_kind := .clover, count := 2 }], output := .firefly, cost := none }
                  [])))))))

/-- Freshly instantiated ledger (`contract.rs`, `instantiate`): supply 0,
allocator at 1, unpaused, default recipes installed, all maps empty. -/
def initLedger (name symbol minter owner : String) (base_uri : Option String) :
    Ledger :=
  { config := { name := name, symbol := symbol, minter := minter,
                base_uri := base_uri, owner := owner }
    token_meta := []
    token_ownership := []
    token_approvals := []
    operator_approvals := []
    tokens_by_owner := []
    all_tokens := []
    total_supply := 0
    next_token_id := 1
    series_next_serial := []
    recipes := defaultRecipes
    synthesis_history := []
    contract_paused := false
    allowed_minters := [] }

/-- Mutating operations of the lifecycle / ownership / synthesis surface, as
dispatched by `contract.rs`. -/
inductive Op
  | mint (sender : String) (token_id : Nat) (owner : String) (ext : NftMeta)
  | batchMint (sender : String) (mints : List BatchMintItem)
  | burn (sender : String) (token_id : Nat)
  | transferNft (sender recipient : String) (token_id : Nat)
  | synthesize (env : Env) (sender : String) (inputs : List Nat) (target : NftKind)
  | approve (sender spender : String) (token_id : Nat) (expires : Option Expiration)
deriving DecidableEq

/-- Dispatch of one operation to its handler. -/
def applyOp (s : Ledger) : Op → Except ContractError Ledger
  | .mint sender tid owner ext => execute_mint s sender tid owner ext
  | .batchMint sender mints => execute_batch_mint s sender mints
  | .burn sender tid => execute_burn s sender tid
  | .transferNft sender recipient tid => execute_transfer_nft s sender recipient tid
  | .synthesize env sender inputs target => execute_synthesize s env sender inputs target
  | .approve sender spender tid expires => execute_approve s sender spender tid expires

/-- Transactional step: a failed operation discards its writes, leaving the
committed state unchanged (§5 of the execution model). -/
def step (s : Ledger) (op : Op) : Ledger :=
  match applyOp s op with
  | .ok s' => s'
  | .error _ => s

/-- Execution of a sequence of operations from a starting state. -/
def run (s : Ledger) (ops : List Op) : Ledger :=
  ops.foldl step s

/-- Keys of a `Nat`-keyed storage map. -/
def keysNat {α : Type} (l : List (Nat × α)) : List Nat :=
  l.map Prod.fst

/-- Successful result of an operation, with a fallback state for the error
case (used only to name concrete reachable states in witnesses). -/
def getOk (d : Ledger) (r : Except ContractError Ledger) : Ledger :=
  match r with
  | .ok s => s
  | .error _ => d

/-- Sample metadata used by the concrete scenarios. -/
def sampleMeta : NftMeta :=
  { kind := .clover
    scale_origin := .tiny
    physical_sku := none
    crafted_from := none
    series_id := "test"
    collection_group_id := none
    serial_in_series := 1 }

/-- Freshly instantiated concrete ledger. -/
def ledger0 : Ledger :=
  initLedger "Luckee NFT" "LUCKEE" "minter" "creator" none

/-- The concrete ledger with the pause flag set by the owner. -/
def pausedLedger : Ledger :=
  { ledger0 with contract_paused := true }

/-- The default firefly recipe (2 clovers). -/
def fireflyRecipe : Recipe :=
  { inputs := [{ nft_kind := .clover, count := 2 }], output := .firefly, cost := none }

/-- Five single mints of ids 1..5 to one owner. -/
def fiveMintOps : List Op :=
  [Op.mint "minter" 1 "user1" sampleMeta,
   Op.mint "minter" 2 "user1" sampleMeta,
   Op.mint "minter" 3 "user1" sampleMeta,
   Op.mint "minter" 4 "user1" sampleMeta,
   Op.mint "minter" 5 "user1" sampleMeta]

/-- Ledger holding exactly tokens "1..5", owned by `user1`. -/
def fiveTokens : Ledger :=
  run ledger0 fiveMintOps

/-- Ledger after minting token 1 to `alice` on the fresh ledger. -/
def mintState : Ledger :=
  getOk ledger0 (execute_mint ledger0 "minter" 1 "alice" sampleMeta)

/-- Ledger after minting token 1 to `alice` and approving `bob` on it. -/
def c7TransPre : Ledger :=
  getOk ledger0 (execute_mint ledger0 "minter" 1 "alice" sampleMeta >>= fun s =>
    execute_approve s "alice" "bob" 1 none)

/-- Ledger after the approved token 1 is transferred from `alice` to `carol`. -/
def c7TransPost : Ledger :=
  getOk ledger0 (execute_transfer_nft c7TransPre "alice" "carol" 1)

/-- Ledger after token 1 is burned by `alice`. -/
def c7BurnPost : Ledger :=
  getOk ledger0 (execute_burn mintState "alice" 1)

/-- Ledger after the owner records allowance `false` for the config minter. -/
def c9Post : Ledger :=
  getOk ledger0 (execute_set_minter ledger0 "creator" "minter" false)

/-- Uniqueness-and-allocator invariant: live-token maps have pairwise-distinct
keys and every live token id lies strictly below the next-token-id allocator. -/
def Inv (s : Ledger) : Prop :=
  (keysNat s.token_meta).Nodup ∧
  (keysNat s.token_ownership).Nodup ∧
  ∀ id ∈ keysNat s.token_meta, id < s.next_token_id

/-- Two clover mints feeding the concrete synthesis scenario. -/
def c2Ops : List Op :=
  [Op.mint "minter" 1 "alice" sampleMeta, Op.mint "minter" 2 "alice" sampleMeta]

/-- Ledger holding clover tokens 1 and 2 owned by `alice`. -/
def c2Pre : Ledger :=
  run ledger0 c2Ops

/-- Ledger after `alice` synthesizes tokens 1 and 2 into a firefly. -/
def c2Post : Ledger :=
  getOk ledger0 (execute_synthesize c2Pre { height := 0, time := 100 } "alice" [1, 2] .firefly)

/-- C1: a successful batch mint of a single item on a fresh ledger leaves the
total-supply counter at 2 while exactly one token id is present in the global
existence index — the loop's local `+= 1` per item and the final
`checked_add(mint_count)` both count the batch, so supply grows by `2n`, not
`n`, and the claimed equality with the existence index fails. -/
theorem c1_batch_mint_double_counts_supply :
    (execute_batch_mint ledger0 "minter"
        [{ token_id := 1, owner := "alice", extension := sampleMeta }]).map
      (fun s => (s.total_supply, s.all_tokens)) = .ok (2, [1]) := by
  decide

/-- C2 counterexample: minting id 5, burning it, then minting id 5 again all
succeed, and the burned id ends up owned by the second recipient — an
explicit mint of a burned id is accepted (only current existence is checked),
refuting "once a token ID has been burned it is never assigned again". -/
theorem c2_counterexample_burned_id_reminted :
    (execute_mint ledger0 "minter" 5 "alice" sampleMeta >>= fun s1 =>
      execute_burn s1 "alice" 5 >>= fun s2 =>
        execute_mint s2 "minter" 5 "bob" sampleMeta).map
      (fun s3 => slLookup 5 s3.token_ownership) = .ok (some "bob") := by
  decide

/-- C3: on the ledger holding exactly ids 1..5, the all-tokens query with the
exclusive cursor 3 returns 5 as its first element — not 4, the smallest id
strictly greater than 3 — and the per-owner query does the same: the extra
`skip(1)` after the `skip_while` drops one element beyond the cursor, so
page concatenation loses an id per page. -/
theorem c3_pagination_skips_one_past_cursor :
    fiveTokens.all_tokens = [1, 2, 3, 4, 5] ∧
    query_all_tokens fiveTokens (some 3) (some 3) = [5] ∧
    query_tokens fiveTokens "user1" (some 3) (some 3) = .ok [5] := by
  decide

/-- C4 counterexample: on a paused ledger the owner's setRecipe, removeRecipe
and setMinterAllowance all fail with the contract-paused error, refuting the
claim that these operations are not gated by the pause flag. -/
theorem c4_counterexample_admin_ops_pause_gated :
    pausedLedger.contract_paused = true ∧
    pausedLedger.config.owner = "creator" ∧
    execute_set_recipe pausedLedger "creator" .firefly fireflyRecipe =
      .error .ContractPaused ∧
    execute_remove_recipe pausedLedger "creator" .firefly = .error .ContractPaused ∧
    execute_set_minter pausedLedger "creator" "minter2" true =
      .error .ContractPaused := by
  decide

/-- C4 amended: in every state with the pause flag set, setRecipe,
removeRecipe and setMinterAllowance fail with the contract-paused error for
every caller (owner included) — they are pause-gated exactly like the token
operations, each handler running `check_contract_paused` first. -/
theorem c4_amended_admin_ops_fail_when_paused (s : Ledger)
    (h : s.contract_paused = true) (sender minter : String) (allowed : Bool)
    (target : NftKind) (recipe : Recipe) :
    execute_set_recipe s sender target recipe = .error .ContractPaused ∧
    execute_remove_recipe s sender target = .error .ContractPaused ∧
    execute_set_minter s sender minter allowed = .error .ContractPaused := by
  unfold execute_set_recipe execute_remove_recipe execute_set_minter
    check_contract_paused
  simp [h]

/-- C4 amended witness: the amended statement at the concrete paused ledger. -/
theorem c4_amended_witness :
    pausedLedger.contract_paused = true ∧
    (execute_set_recipe pausedLedger "user9" .firefly fireflyRecipe =
        .error .ContractPaused ∧
      execute_remove_recipe pausedLedger "user9" .firefly = .error .ContractPaused ∧
      execute_set_minter pausedLedger "user9" "minter2" false =
        .error .ContractPaused) :=
  ⟨by decide,
   c4_amended_admin_ops_fail_when_paused pausedLedger (by decide) "user9" "minter2"
     false .firefly fireflyRecipe⟩

/-- C5: minting at `u64::MAX` on a fresh ledger fails with the overflow
error: the allocator adjustment `token_id.checked_add(1)` runs whenever
`token_id >= NEXT_TOKEN_ID`, which is always the case at `u64::MAX`, so the
very first such mint is rejected (the boundary test asserts it succeeds). -/
theorem c5_mint_at_u64_max_overflows :
    execute_mint ledger0 "minter" U64MAX "user" sampleMeta = .error .Overflow := by
  decide

/-- C6 counterexample: transferring a token with no owner record on a fresh
unpaused ledger fails with the generic storage not-found error surfaced as
`ContractError::Std`, not with the dedicated `TokenNotFound` variant the
claim names. -/
theorem c6_counterexample_missing_token_error_kind :
    ledger0.contract_paused = false ∧
    slLookup 1 ledger0.token_ownership = none ∧
    execute_transfer_nft ledger0 "alice" "bob" 1 =
      .error (.Std (.notFound "token owner")) ∧
    execute_transfer_nft ledger0 "alice" "bob" 1 ≠ .error .TokenNotFound := by
  decide

/-- Unfolding equation for key removal on a cons cell. -/
theorem slRemove_cons {κ α : Type} [DecidableEq κ] (k : κ) (p : κ × α)
    (t : List (κ × α)) :
    slRemove k (p :: t) = if p.1 = k then slRemove k t else p :: slRemove k t := by
  by_cases h : p.1 = k <;> simp [slRemove, List.filter_cons, h]

/-- Removing a key makes its lookup come back empty. -/
theorem slLookup_slRemove_self {κ α : Type} [DecidableEq κ] (k : κ)
    (l : List (κ × α)) : slLookup k (slRemove k l) = none := by
  induction l with
  | nil => rfl
  | cons p t ih =>
    rw [slRemove_cons]
    by_cases h : p.1 = k
    · simpa [h] using ih
    · simpa [h, slLookup, Ne.symm h] using ih

/-- Removing one key leaves every other lookup unchanged. -/
theorem slLookup_slRemove_ne {κ α : Type} [DecidableEq κ] {k k' : κ}
    (h : k' ≠ k) (l : List (κ × α)) :
    slLookup k' (slRemove k l) = slLookup k' l := by
  induction l with
  | nil => rfl
  | cons p t ih =>
    rw [slRemove_cons]
    by_cases hpk : p.1 = k
    · simp [hpk, slLookup, h, ih]
    · by_cases hp : k' = p.1
      · simp [hpk, slLookup, hp]
      · simp [hpk, slLookup, hp, ih]

/-- A map insert is a cons onto the removal of the key. -/
theorem slInsert_eq {κ α : Type} [DecidableEq κ] (k : κ) (v : α)
    (l : List (κ × α)) : slInsert k v l = (k, v) :: slRemove k l :=
  rfl

/-- An inserted binding is found by its own key. -/
theorem slLookup_slInsert_self {κ α : Type} [DecidableEq κ] (k : κ) (v : α)
    (l : List (κ × α)) : slLookup k (slInsert k v l) = some v := by
  simp [slInsert, slLookup]

/-- Inserting one binding leaves every other lookup unchanged. -/
theorem slLookup_slInsert_ne {κ α : Type} [DecidableEq κ] {k k' : κ}
    (h : k' ≠ k) (v : α) (l : List (κ × α)) :
    slLookup k' (slInsert k v l) = slLookup k' l := by
  rw [slInsert_eq]
  simp [slLookup, h, slLookup_slRemove_ne h l]

/-- The owner-index transfer helper touches only the owner index. -/
theorem update_owner_tokens_fields (s : Ledger) (fa ta : String) (tid : Nat) :
    (update_owner_tokens s fa ta tid).config = s.config ∧
    (update_owner_tokens s fa ta tid).token_meta = s.token_meta ∧
    (update_owner_tokens s fa ta tid).token_ownership = s.token_ownership ∧
    (update_owner_tokens s fa ta tid).token_approvals = s.token_approvals ∧
    (update_owner_tokens s fa ta tid).operator_approvals = s.operator_approvals ∧
    (update_owner_tokens s fa ta tid).all_tokens = s.all_tokens ∧
    (update_owner_tokens s fa ta tid).total_supply = s.total_supply ∧
    (update_owner_tokens s fa ta tid).next_token_id = s.next_token_id ∧
    (update_owner_tokens s fa ta tid).series_next_serial = s.series_next_serial ∧
    (update_owner_tokens s fa ta tid).recipes = s.recipes ∧
    (update_owner_tokens s fa ta tid).synthesis_history = s.synthesis_history ∧
    (update_owner_tokens s fa ta tid).contract_paused = s.contract_paused ∧
    (update_owner_tokens s fa ta tid).allowed_minters = s.allowed_minters := by
  unfold update_owner_tokens
  split
  · exact ⟨rfl, rfl, rfl, rfl, rfl, rfl, rfl, rfl, rfl, rfl, rfl, rfl, rfl⟩
  · dsimp only
    split <;> exact ⟨rfl, rfl, rfl, rfl, rfl, rfl, rfl, rfl, rfl, rfl, rfl, rfl, rfl⟩

/-- The owner-index transfer helper leaves the index entries of uninvolved
addresses unchanged. -/
theorem slLookup_update_owner_tokens_other (s : Ledger) {fa ta a : String}
    (tid : Nat) (ha : a ≠ fa) (ha' : a ≠ ta) :
    slLookup a (update_owner_tokens s fa ta tid).tokens_by_owner =
      slLookup a s.tokens_by_owner := by
  unfold update_owner_tokens
  split
  · simp [slLookup_slInsert_ne ha']
  · dsimp only
    split
    · simp [slLookup_slInsert_ne ha', slLookup_slRemove_ne ha]
    · simp [slLookup_slInsert_ne ha', slLookup_slInsert_ne ha]

/-- The owner-index removal helper touches neither ownership nor approvals. -/
theorem remove_token_from_owner_fields (s : Ledger) (o : String) (t : Nat) :
    (remove_token_from_owner s o t).token_ownership = s.token_ownership ∧
    (remove_token_from_owner s o t).token_approvals = s.token_approvals := by
  unfold remove_token_from_owner
  split
  · exact ⟨rfl, rfl⟩
  · dsimp only
    split <;> exact ⟨rfl, rfl⟩

/-- C6 amended: on an unpaused state, transfer fails with `NotOwned` when the
token is owned by someone other than the sender, fails with the generic
storage not-found error (surfaced as `ContractError::Std`, not as
`TokenNotFound`) when the token has no owner record, and on success rewrites
only the ownership record, the two owner-index entries and the token's
(cleared) approvals, leaving every other part of the state unchanged. -/
theorem c6_amended_transfer_behaviour (s : Ledger) (sender recipient : String)
    (tid : Nat) (hp : s.contract_paused = false) :
    (∀ o, slLookup tid s.token_ownership = some o → o ≠ sender →
      execute_transfer_nft s sender recipient tid = .error .NotOwned) ∧
    (slLookup tid s.token_ownership = none →
      execute_transfer_nft s sender recipient tid =
        .error (.Std (.notFound "token owner"))) ∧
    (slLookup tid s.token_ownership = some sender →
      ∃ s', execute_transfer_nft s sender recipient tid = .ok s' ∧
        slLookup tid s'.token_ownership = some recipient ∧
        (∀ t, t ≠ tid → slLookup t s'.token_ownership = slLookup t s.token_ownership) ∧
        slLookup tid s'.token_approvals = none ∧
        (∀ t, t ≠ tid → slLookup t s'.token_approvals = slLookup t s.token_approvals) ∧
        (∀ a, a ≠ sender → a ≠ recipient →
          slLookup a s'.tokens_by_owner = slLookup a s.tokens_by_owner) ∧
        s'.config = s.config ∧
        s'.token_meta = s.token_meta ∧
        s'.operator_approvals = s.operator_approvals ∧
        s'.all_tokens = s.all_tokens ∧
        s'.total_supply = s.total_supply ∧
        s'.next_token_id = s.next_token_id ∧
        s'.series_next_serial = s.series_next_serial ∧
        s'.recipes = s.recipes ∧
        s'.synthesis_history = s.synthesis_history ∧
        s'.contract_paused = s.contract_paused ∧
        s'.allowed_minters = s.allowed_minters) := by
  refine ⟨?_, ?_, ?_⟩
  · intro o ho hne
    unfold execute_transfer_nft check_contract_paused
    rw [hp, ho]
    simp [hne]
  · intro ho
    unfold execute_transfer_nft check_contract_paused
    rw [hp, ho]
    simp
  · intro ho
    refine ⟨update_owner_tokens
        (clear_token_approvals
          { s with token_ownership := slInsert tid recipient s.token_ownership } tid)
        sender recipient tid, ?_, ?_, ?_, ?_, ?_, ?_, ?_, ?_, ?_, ?_, ?_, ?_, ?_,
        ?_, ?_, ?_, ?_⟩
    · unfold execute_transfer_nft check_contract_paused addr_validate
      rw [hp, ho]
      simp
    · rw [(update_owner_tokens_fields _ _ _ _).2.2.1]
      exact slLookup_slInsert_self tid recipient s.token_ownership
    · intro t ht
      rw [(update_owner_tokens_fields _ _ _ _).2.2.1]
      exact slLookup_slInsert_ne ht recipient s.token_ownership
    · rw [(update_owner_tokens_fields _ _ _ _).2.2.2.1]
      exact slLookup_slRemove_self tid s.token_approvals
    · intro t ht
      rw [(update_owner_tokens_fields _ _ _ _).2.2.2.1]
      exact slLookup_slRemove_ne ht s.token_approvals
    · intro a ha ha'
      exact slLookup_update_owner_tokens_other _ tid ha ha'
    · exact (update_owner_tokens_fields _ _ _ _).1
    · exact (update_owner_tokens_fields _ _ _ _).2.1
    · exact (update_owner_tokens_fields _ _ _ _).2.2.2.2.1
    · exact (update_owner_tokens_fields _ _ _ _).2.2.2.2.2.1
    · exact (update_owner_tokens_fields _ _ _ _).2.2.2.2.2.2.1
    · exact (update_owner_tokens_fields _ _ _ _).2.2.2.2.2.2.2.1
    · exact (update_owner_tokens_fields _ _ _ _).2.2.2.2.2.2.2.2.1
    · exact (update_owner_tokens_fields _ _ _ _).2.2.2.2.2.2.2.2.2.1
    · exact (update_owner_tokens_fields _ _ _ _).2.2.2.2.2.2.2.2.2.2.1
    · exact (update_owner_tokens_fields _ _ _ _).2.2.2.2.2.2.2.2.2.2.2.1
    · exact (update_owner_tokens_fields _ _ _ _).2.2.2.2.2.2.2.2.2.2.2.2

/-- C6 amended witness: the three scenarios at the concrete one-token ledger. -/
theorem c6_amended_witness :
    execute_transfer_nft mintState "bob" "carol" 1 = .error .NotOwned ∧
    execute_transfer_nft mintState "bob" "carol" 2 =
      .error (.Std (.notFound "token owner")) ∧
    ∃ s', execute_transfer_nft mintState "alice" "carol" 1 = .ok s' ∧
      slLookup 1 s'.token_ownership = some "carol" := by
  have h1 := (c6_amended_transfer_behaviour mintState "bob" "carol" 1
    (by decide)).1 "alice" (by decide) (by decide)
  have h2 := (c6_amended_transfer_behaviour mintState "bob" "carol" 2
    (by decide)).2.1 (by decide)
  have h3 := (c6_amended_transfer_behaviour mintState "alice" "carol" 1
    (by decide)).2.2 (by decide)
  obtain ⟨s', hok, hlook, -⟩ := h3
  exact ⟨h1, h2, s', hok, hlook⟩

/-- C7: after any successful transfer the transferred token's stored approval
list is gone and the approvals query with include-expired returns no entries;
after any successful burn the stored approval list is gone as well, and the
approvals query reports the token as missing (so again returns no entries). -/
theorem c7_approval_purge (sT sT' sB sB' : Ledger) (envq : Env)
    (senderT recipientT senderB : String) (tidT tidB : Nat)
    (hT : execute_transfer_nft sT senderT recipientT tidT = .ok sT')
    (hB : execute_burn sB senderB tidB = .ok sB') :
    slLookup tidT sT'.token_approvals = none ∧
    query_approvals sT' envq tidT (some true) = .ok [] ∧
    slLookup tidB sB'.token_approvals = none ∧
    query_approvals sB' envq tidB (some true) =
      .error (.Std (.notFound "token owner")) := by
  unfold execute_transfer_nft check_contract_paused addr_validate at hT
  unfold execute_burn check_contract_paused at hB
  split at hT
  · exact absurd hT (by simp)
  · split at hT
    · exact absurd hT (by simp)
    · rename_i owner hown
      split at hT
      · exact absurd hT (by simp)
      · injection hT with hT'
        subst hT'
        split at hB
        · exact absurd hB (by simp)
        · split at hB
          · exact absurd hB (by simp)
          · split at hB
            · exact absurd hB (by simp)
            · rename_i ownerB hownB
              split at hB
              · exact absurd hB (by simp)
              · dsimp only at hB
                split at hB
                · exact absurd hB (by simp)
                · rename_i v hsub
                  injection hB with hB'
                  subst hB'
                  refine ⟨?_, ?_, ?_, ?_⟩
                  · rw [(update_owner_tokens_fields _ _ _ _).2.2.2.1]
                    exact slLookup_slRemove_self tidT _
                  · unfold query_approvals
                    rw [(update_owner_tokens_fields _ _ _ _).2.2.1,
                        (update_owner_tokens_fields _ _ _ _).2.2.2.1]
                    dsimp only [clear_token_approvals]
                    rw [slLookup_slInsert_self, slLookup_slRemove_self]
                    simp
                  · dsimp only
                    rw [(remove_token_from_owner_fields _ _ _).2]
                    exact slLookup_slRemove_self tidB _
                  · unfold query_approvals
                    dsimp only
                    rw [(remove_token_from_owner_fields _ _ _).1]
                    dsimp only [clear_token_approvals]
                    rw [slLookup_slRemove_self]

/-- C7 witness: the purge at a concrete transfer (of a token carrying a live
approval) and a concrete burn. -/
theorem c7_approval_purge_witness :
    slLookup 1 c7TransPost.token_approvals = none ∧
    query_approvals c7TransPost { height := 0, time := 0 } 1 (some true) = .ok [] ∧
    slLookup 1 c7BurnPost.token_approvals = none ∧
    query_approvals c7BurnPost { height := 0, time := 0 } 1 (some true) =
      .error (.Std (.notFound "token owner")) :=
  c7_approval_purge c7TransPre c7TransPost mintState c7BurnPost
    { height := 0, time := 0 } "alice" "carol" "alice" 1 1 (by decide) (by decide)

/-- C9: the configured minter is authorized in every state (the equality test
against the config minter precedes the allowed-minters lookup), and a
setMinterAllowance call storing `false` for that address leaves it
authorized. -/
theorem c9_config_minter_always_authorized (s s' : Ledger) (sender : String)
    (h : execute_set_minter s sender s.config.minter false = .ok s') :
    is_authorized_minter s s.config.minter s.config = .ok true ∧
    s'.config = s.config ∧
    slLookup s.config.minter s'.allowed_minters = some false ∧
    is_authorized_minter s' s'.config.minter s'.config = .ok true := by
  constructor
  · unfold is_authorized_minter
    simp
  unfold execute_set_minter check_contract_paused addr_validate at h
  split at h
  · exact absurd h (by simp)
  · split at h
    · exact absurd h (by simp)
    · injection h with h'
      subst h'
      refine ⟨rfl, ?_, ?_⟩
      · exact slLookup_slInsert_self _ _ _
      · unfold is_authorized_minter
        simp

/-- C9 witness: the statement at the concrete fresh ledger. -/
theorem c9_witness :
    is_authorized_minter ledger0 "minter" ledger0.config = .ok true ∧
    slLookup "minter" c9Post.allowed_minters = some false ∧
    is_authorized_minter c9Post c9Post.config.minter c9Post.config = .ok true := by
  have h := c9_config_minter_always_authorized ledger0 c9Post "creator" (by decide)
  exact ⟨h.1, h.2.2.1, h.2.2.2⟩

/-- Counting through a sorted insertion. -/
theorem count_insSorted (x y : Nat) (l : List Nat) :
    (insSorted x l).count y = l.count y + if y = x then 1 else 0 := by
  induction l with
  | nil =>
    unfold insSorted
    simp only [List.count_cons, List.count_nil, beq_iff_eq]
    split_ifs <;> omega
  | cons a t ih =>
    unfold insSorted
    by_cases h : x ≤ a
    · simp only [if_pos h, List.count_cons, beq_iff_eq]
      split_ifs <;> omega
    · simp only [if_neg h, List.count_cons, ih, beq_iff_eq]
      split_ifs <;> omega

/-- The insertion-sort model preserves element counts. -/
theorem count_sortNat (y : Nat) (l : List Nat) :
    (sortNat l).count y = l.count y := by
  induction l with
  | nil => rfl
  | cons a t ih =>
    show (insSorted a (sortNat t)).count y = (a :: t).count y
    simp only [count_insSorted, ih, List.count_cons, beq_iff_eq]
    split_ifs <;> omega

/-- Filtering an id out leaves no copy of it. -/
theorem count_filter_ne (l : List Nat) (tid : Nat) :
    (l.filter (fun id => id ≠ tid)).count tid = 0 := by
  induction l with
  | nil => rfl
  | cons a t ih =>
    rw [List.filter_cons]
    by_cases h : a = tid
    · rw [if_neg (by simp [h])]
      exact ih
    · rw [if_pos (by simp [h]), List.count_cons]
      have hne : (a == tid) = false := by simp [h]
      rw [hne]
      simpa using ih

/-- The same fact for the boolean-normal form of the filter predicate. -/
theorem count_filter_ne_bnot (l : List Nat) (tid : Nat) :
    (l.filter (fun id => !decide (id = tid))).count tid = 0 := by
  have e : (fun id => !decide (id = tid)) = (fun id : Nat => decide (id ≠ tid)) := by
    funext id
    simp [decide_not]
  rw [e]
  exact count_filter_ne l tid

/-- A removal-then-reinsertion of the same id into the same owner's index
leaves exactly one copy of the id. -/
theorem count_update_owner_tokens_self (s : Ledger) (a : String) (tid : Nat) :
    ((slLookup a (update_owner_tokens s a a tid).tokens_by_owner).getD []).count tid
      = 1 := by
  unfold update_owner_tokens
  cases h : slLookup a s.tokens_by_owner with
  | none =>
    simp only [h]
    rw [slLookup_slInsert_self]
    simp [h, pushSort, count_sortNat]
  | some tokens =>
    simp only [h]
    by_cases he : (tokens.filter (fun id => id ≠ tid)).isEmpty
    · simp only [he, if_pos, if_true]
      rw [slLookup_slInsert_self]
      simp [slLookup_slRemove_self, pushSort, count_sortNat]
    · simp only [he, if_neg, if_false, Bool.false_eq_true]
      rw [slLookup_slInsert_self]
      simp [slLookup_slInsert_self, pushSort, count_sortNat, List.count_append,
        count_filter_ne, count_filter_ne_bnot]

/-- C10: a self-transfer of an owned token in an unpaused state succeeds, the
owner is unchanged, and the token id occurs exactly once in the owner's index
list afterwards (the removal-then-reinsertion neither drops nor duplicates). -/
theorem c10_self_transfer (s : Ledger) (sender : String) (tid : Nat)
    (hp : s.contract_paused = false)
    (ho : slLookup tid s.token_ownership = some sender) :
    ∃ s', execute_transfer_nft s sender sender tid = .ok s' ∧
      slLookup tid s'.token_ownership = some sender ∧
      ((slLookup sender s'.tokens_by_owner).getD []).count tid = 1 := by
  refine ⟨update_owner_tokens
      (clear_token_approvals
        { s with token_ownership := slInsert tid sender s.token_ownership } tid)
      sender sender tid, ?_, ?_, ?_⟩
  · unfold execute_transfer_nft check_contract_paused addr_validate
    rw [hp, ho]
    simp
  · rw [(update_owner_tokens_fields _ _ _ _).2.2.1]
    exact slLookup_slInsert_self tid sender s.token_ownership
  · exact count_update_owner_tokens_self _ sender tid

/-- C10 witness: the self-transfer at the concrete one-token ledger. -/
theorem c10_self_transfer_witness :
    ∃ s', execute_transfer_nft mintState "alice" "alice" 1 = .ok s' ∧
      slLookup 1 s'.token_ownership = some "alice" ∧
      ((slLookup "alice" s'.tokens_by_owner).getD []).count 1 = 1 :=
  c10_self_transfer mintState "alice" 1 (by decide) (by decide)

/-- C8: the isApprovedForAll query returns the constant response record
(spender = operator, expires = never) in every state and environment: the
two branches of the response construction are syntactically identical, so
the output reveals neither the operator-approval state nor any stored
expiry. -/
theorem c8_is_approved_for_all_constant (s : Ledger) (env : Env)
    (owner operator : String) :
    query_is_approved_for_all s env owner operator =
      .ok { spender := operator, expires := Cw721Expiration.never } := by
  unfold query_is_approved_for_all addr_validate
  simp

/-- Keys of an insert: the new key in front of the keys of the removal. -/
theorem keysNat_slInsert {α : Type} (k : Nat) (v : α) (l : List (Nat × α)) :
    keysNat (slInsert k v l) = k :: keysNat (slRemove k l) :=
  rfl

/-- Keys of a removal form a sublist of the original keys. -/
theorem keysNat_slRemove_sublist {α : Type} (k : Nat) (l : List (Nat × α)) :
    List.Sublist (keysNat (slRemove k l)) (keysNat l) :=
  (List.filter_sublist l).map Prod.fst

/-- The removed key is absent from the keys of the removal. -/
theorem not_mem_keysNat_slRemove_self {α : Type} (k : Nat) (l : List (Nat × α)) :
    k ∉ keysNat (slRemove k l) := by
  simp [keysNat, slRemove, List.mem_map, List.mem_filter]

/-- Distinctness of keys is preserved by a replacing insert. -/
theorem nodup_keysNat_slInsert {α : Type} (k : Nat) (v : α) (l : List (Nat × α))
    (h : (keysNat l).Nodup) : (keysNat (slInsert k v l)).Nodup := by
  rw [keysNat_slInsert]
  exact List.Nodup.cons (not_mem_keysNat_slRemove_self k l)
    ((keysNat_slRemove_sublist k l).nodup h)

/-- A key of an insert is the inserted key or a key of the original map. -/
theorem mem_keysNat_slInsert {α : Type} {a k : Nat} {v : α} {l : List (Nat × α)}
    (h : a ∈ keysNat (slInsert k v l)) : a = k ∨ a ∈ keysNat l := by
  rw [keysNat_slInsert] at h
  rcases List.mem_cons.mp h with h | h
  · exact Or.inl h
  · exact Or.inr ((keysNat_slRemove_sublist k l).subset h)

/-- Behaviour of the allocator-adjustment step shared by `execute_mint` and
the batch-mint loop body: on success the token maps are untouched, the
allocator does not decrease, and it ends strictly above the minted id. -/
theorem next_id_update_spec (s s₁ : Ledger) (tid : Nat)
    (heq : (if s.next_token_id ≤ tid then
              match checkedAdd tid 1 with
              | none => .error ContractError.Overflow
              | some nid => .ok { s with next_token_id := nid }
            else (.ok s : Except ContractError Ledger)) = .ok s₁) :
    s₁.token_meta = s.token_meta ∧ s₁.token_ownership = s.token_ownership ∧
    s.next_token_id ≤ s₁.next_token_id ∧ tid < s₁.next_token_id := by
  split at heq
  · rename_i hle
    split at heq
    · exact absurd heq (by simp)
    · rename_i nid hadd
      injection heq with h
      subst h
      unfold checkedAdd at hadd
      split at hadd
      · injection hadd with h'
        subst h'
        exact ⟨rfl, rfl, Nat.le_succ_of_le hle, Nat.lt_succ_self tid⟩
      · exact absurd hadd (by simp)
  · rename_i hnle
    injection heq with h
    subst h
    exact ⟨rfl, rfl, Nat.le_refl _, Nat.lt_of_not_le hnle⟩

/-- The owner-index removal helper changes only the owner index. -/
theorem remove_token_from_owner_keeps (s : Ledger) (o : String) (t : Nat) :
    (remove_token_from_owner s o t).token_meta = s.token_meta ∧
    (remove_token_from_owner s o t).token_ownership = s.token_ownership ∧
    (remove_token_from_owner s o t).next_token_id = s.next_token_id := by
  unfold remove_token_from_owner
  split
  · exact ⟨rfl, rfl, rfl⟩
  · dsimp only
    split <;> exact ⟨rfl, rfl, rfl⟩

/-- Consuming a synthesis input removes it from the token maps and leaves the
allocator alone. -/
theorem consumeInput_keeps (sender : String) (s : Ledger) (tid : Nat) :
    (consumeInput sender s tid).token_meta = slRemove tid s.token_meta ∧
    (consumeInput sender s tid).token_ownership = slRemove tid s.token_ownership ∧
    (consumeInput sender s tid).next_token_id = s.next_token_id := by
  unfold consumeInput clear_token_approvals
  exact ⟨(remove_token_from_owner_keeps _ _ _).1,
    (remove_token_from_owner_keeps _ _ _).2.1,
    (remove_token_from_owner_keeps _ _ _).2.2⟩

/-- The consumption fold of `execute_synthesize` keeps the allocator and only
removes keys from the token maps. -/
theorem foldl_consume_keeps (sender : String) :
    ∀ (l : List Nat) (s : Ledger),
      (l.foldl (consumeInput sender) s).next_token_id = s.next_token_id ∧
      List.Sublist (keysNat (l.foldl (consumeInput sender) s).token_meta)
        (keysNat s.token_meta) ∧
      List.Sublist (keysNat (l.foldl (consumeInput sender) s).token_ownership)
        (keysNat s.token_ownership) := by
  intro l
  induction l with
  | nil => exact fun s => ⟨rfl, List.Sublist.refl _, List.Sublist.refl _⟩
  | cons x xs ih =>
    intro s
    have hc := consumeInput_keeps sender s x
    have h := ih (consumeInput sender s x)
    refine ⟨?_, ?_, ?_⟩
    · rw [List.foldl_cons, h.1, hc.2.2]
    · refine List.Sublist.trans h.2.1 ?_
      rw [hc.1]
      exact keysNat_slRemove_sublist x _
    · refine List.Sublist.trans h.2.2 ?_
      rw [hc.2.1]
      exact keysNat_slRemove_sublist x _

/-- Mint preserves the uniqueness-and-allocator invariant and never moves the
allocator backwards. -/
theorem inv_mint {s s' : Ledger} {sender owner : String} {tid : Nat}
    {ext : NftMeta} (h : Inv s)
    (hm : execute_mint s sender tid owner ext = .ok s') :
    Inv s' ∧ s.next_token_id ≤ s'.next_token_id := by
  unfold execute_mint check_contract_paused addr_validate at hm
  split at hm
  · exact absurd hm (by simp)
  split at hm
  · exact absurd hm (by simp)
  split at hm
  · exact absurd hm (by simp)
  split at hm
  · exact absurd hm (by simp)
  split at hm
  · exact absurd hm (by simp)
  split at hm
  · exact absurd hm (by simp)
  split at hm
  · exact absurd hm (by simp)
  split at hm
  · exact absurd hm (by simp)
  rename_i s₁ heqnext
  dsimp only at hm
  split at hm
  · exact absurd hm (by simp)
  rename_i new_serial heqser
  split at hm
  · exact absurd hm (by simp)
  rename_i new_supply heqsup
  injection hm with hs'
  subst hs'
  obtain ⟨e1, e2, e3, e4⟩ := next_id_update_spec s s₁ tid heqnext
  refine ⟨⟨?_, ?_, ?_⟩, e3⟩
  · show (keysNat (slInsert tid ext s₁.token_meta)).Nodup
    rw [e1]
    exact nodup_keysNat_slInsert _ _ _ h.1
  · show (keysNat (slInsert tid owner s₁.token_ownership)).Nodup
    rw [e2]
    exact nodup_keysNat_slInsert _ _ _ h.2.1
  · intro id hid
    have hid' : id ∈ keysNat (slInsert tid ext s₁.token_meta) := hid
    rcases mem_keysNat_slInsert hid' with rfl | hmem
    · exact e4
    · rw [e1] at hmem
      exact lt_of_lt_of_le (h.2.2 id hmem) e3

/-- One batch-mint loop iteration preserves the invariant and never moves the
allocator backwards. -/
theorem inv_batch_item {s s' : Ledger} {item : BatchMintItem} (h : Inv s)
    (hm : batchMintItemStep s item = .ok s') :
    Inv s' ∧ s.next_token_id ≤ s'.next_token_id := by
  unfold batchMintItemStep addr_validate at hm
  split at hm
  · exact absurd hm (by simp)
  split at hm
  · exact absurd hm (by simp)
  split at hm
  · exact absurd hm (by simp)
  split at hm
  · exact absurd hm (by simp)
  rename_i s₁ heqnext
  dsimp only at hm
  split at hm
  · exact absurd hm (by simp)
  rename_i new_serial heqser
  injection hm with hs'
  subst hs'
  obtain ⟨e1, e2, e3, e4⟩ := next_id_update_spec s s₁ item.token_id heqnext
  refine ⟨⟨?_, ?_, ?_⟩, e3⟩
  · show (keysNat (slInsert item.token_id item.extension s₁.token_meta)).Nodup
    rw [e1]
    exact nodup_keysNat_slInsert _ _ _ h.1
  · show (keysNat (slInsert item.token_id item.owner s₁.token_ownership)).Nodup
    rw [e2]
    exact nodup_keysNat_slInsert _ _ _ h.2.1
  · intro id hid
    have hid' : id ∈ keysNat (slInsert item.token_id item.extension s₁.token_meta) :=
      hid
    rcases mem_keysNat_slInsert hid' with rfl | hmem
    · exact e4
    · rw [e1] at hmem
      exact lt_of_lt_of_le (h.2.2 id hmem) e3

/-- The batch-mint loop preserves the invariant. -/
theorem inv_batch_loop :
    ∀ (items : List BatchMintItem) (s s' : Ledger), Inv s →
      batchMintLoop s items = .ok s' →
      Inv s' ∧ s.next_token_id ≤ s'.next_token_id := by
  intro items
  induction items with
  | nil =>
    intro s s' h hl
    unfold batchMintLoop at hl
    injection hl with h'
    subst h'
    exact ⟨h, Nat.le_refl _⟩
  | cons item rest ih =>
    intro s s' h hl
    unfold batchMintLoop at hl
    split at hl
    · exact absurd hl (by simp)
    · rename_i s₁ hstep
      have h1 := inv_batch_item h hstep
      have h2 := ih s₁ s' h1.1 hl
      exact ⟨h2.1, Nat.le_trans h1.2 h2.2⟩

/-- Batch mint preserves the invariant and never moves the allocator
backwards. -/
theorem inv_batch {s s' : Ledger} {sender : String} {mints : List BatchMintItem}
    (h : Inv s) (hm : execute_batch_mint s sender mints = .ok s') :
    Inv s' ∧ s.next_token_id ≤ s'.next_token_id := by
  unfold execute_batch_mint check_contract_paused at hm
  split at hm
  · exact absurd hm (by simp)
  split at hm
  · exact absurd hm (by simp)
  split at hm
  · exact absurd hm (by simp)
  split at hm
  · exact absurd hm (by simp)
  dsimp only at hm
  split at hm
  · exact absurd hm (by simp)
  split at hm
  · exact absurd hm (by simp)
  rename_i sL hloop
  split at hm
  · exact absurd hm (by simp)
  rename_i new_total heqtot
  injection hm with hs'
  subst hs'
  have hl := inv_batch_loop mints s sL h hloop
  exact ⟨⟨hl.1.1, hl.1.2.1, hl.1.2.2⟩, hl.2⟩

/-- Burn preserves the invariant and leaves the allocator unchanged. -/
theorem inv_burn {s s' : Ledger} {sender : String} {tid : Nat} (h : Inv s)
    (hm : execute_burn s sender tid = .ok s') :
    Inv s' ∧ s.next_token_id ≤ s'.next_token_id := by
  unfold execute_burn check_contract_paused at hm
  split at hm
  · exact absurd hm (by simp)
  split at hm
  · exact absurd hm (by simp)
  split at hm
  · exact absurd hm (by simp)
  split at hm
  · exact absurd hm (by simp)
  dsimp only at hm
  split at hm
  · exact absurd hm (by simp)
  rename_i new_supply heqsub
  injection hm with hs'
  subst hs'
  refine ⟨⟨?_, ?_, ?_⟩, ?_⟩
  · dsimp only
    rw [(remove_token_from_owner_keeps _ _ _).1]
    dsimp only [clear_token_approvals]
    exact ((keysNat_slRemove_sublist tid s.token_meta).nodup) h.1
  · dsimp only
    rw [(remove_token_from_owner_keeps _ _ _).2.1]
    dsimp only [clear_token_approvals]
    exact ((keysNat_slRemove_sublist tid s.token_ownership).nodup) h.2.1
  · intro id hid
    dsimp only at hid ⊢
    rw [(remove_token_from_owner_keeps _ _ _).1] at hid
    rw [(remove_token_from_owner_keeps _ _ _).2.2]
    dsimp only [clear_token_approvals] at hid ⊢
    exact h.2.2 id ((keysNat_slRemove_sublist tid s.token_meta).subset hid)
  · dsimp only
    rw [(remove_token_from_owner_keeps _ _ _).2.2]
    dsimp only [clear_token_approvals]
    exact Nat.le_refl _

/-- Transfer preserves the invariant and leaves the allocator unchanged. -/
theorem inv_transfer {s s' : Ledger} {sender recipient : String} {tid : Nat}
    (h : Inv s) (hm : execute_transfer_nft s sender recipient tid = .ok s') :
    Inv s' ∧ s.next_token_id ≤ s'.next_token_id := by
  unfold execute_transfer_nft check_contract_paused addr_validate at hm
  split at hm
  · exact absurd hm (by simp)
  split at hm
  · exact absurd hm (by simp)
  split at hm
  · exact absurd hm (by simp)
  split at hm
  · exact absurd hm (by simp)
  injection hm with hs'
  subst hs'
  refine ⟨⟨?_, ?_, ?_⟩, ?_⟩
  · rw [(update_owner_tokens_fields _ _ _ _).2.1]
    dsimp only [clear_token_approvals]
    exact h.1
  · rw [(update_owner_tokens_fields _ _ _ _).2.2.1]
    dsimp only [clear_token_approvals]
    exact nodup_keysNat_slInsert _ _ _ h.2.1
  · intro id hid
    rw [(update_owner_tokens_fields _ _ _ _).2.1] at hid
    rw [(update_owner_tokens_fields _ _ _ _).2.2.2.2.2.2.2.1]
    dsimp only [clear_token_approvals] at hid ⊢
    exact h.2.2 id hid
  · rw [(update_owner_tokens_fields _ _ _ _).2.2.2.2.2.2.2.1]
    dsimp only [clear_token_approvals]
    exact Nat.le_refl _

/-- Approve changes only the approvals map, hence preserves the invariant. -/
theorem inv_approve {s s' : Ledger} {sender spender : String} {tid : Nat}
    {expires : Option Expiration} (h : Inv s)
    (hm : execute_approve s sender spender tid expires = .ok s') :
    Inv s' ∧ s.next_token_id ≤ s'.next_token_id := by
  unfold execute_approve check_contract_paused addr_validate at hm
  split at hm
  · exact absurd hm (by simp)
  split at hm
  · exact absurd hm (by simp)
  split at hm
  · exact absurd hm (by simp)
  injection hm with hs'
  subst hs'
  exact ⟨⟨h.1, h.2.1, h.2.2⟩, Nat.le_refl _⟩

/-- Synthesize preserves the invariant and advances the allocator by one. -/
theorem inv_synthesize {s s' : Ledger} {env : Env} {sender : String}
    {inputs : List Nat} {target : NftKind} (h : Inv s)
    (hm : execute_synthesize s env sender inputs target = .ok s') :
    Inv s' ∧ s.next_token_id ≤ s'.next_token_id := by
  unfold execute_synthesize check_contract_paused at hm
  split at hm
  · exact absurd hm (by simp)
  split at hm
  · exact absurd hm (by simp)
  split at hm
  · exact absurd hm (by simp)
  split at hm
  · exact absurd hm (by simp)
  split at hm
  · exact absurd hm (by simp)
  rename_i nid heqadd
  dsimp only at hm
  split at hm
  · exact absurd hm (by simp)
  rename_i new_serial heqser
  split at hm
  · exact absurd hm (by simp)
  rename_i new_total heqtot
  injection hm with hs'
  subst hs'
  unfold checkedAdd at heqadd
  split at heqadd
  · injection heqadd with hnid
    subst hnid
    have hkeep := foldl_consume_keeps sender inputs { s with next_token_id := s.next_token_id + 1 }
    refine ⟨⟨?_, ?_, ?_⟩, ?_⟩
    · dsimp only [add_token_to_owner]
      refine nodup_keysNat_slInsert _ _ _ ?_
      exact hkeep.2.1.nodup h.1
    · dsimp only [add_token_to_owner]
      refine nodup_keysNat_slInsert _ _ _ ?_
      exact hkeep.2.2.nodup h.2.1
    · intro id hid
      dsimp only [add_token_to_owner] at hid ⊢
      rw [hkeep.1]
      rcases mem_keysNat_slInsert hid with rfl | hmem
      · exact Nat.lt_succ_self _
      · exact Nat.lt_succ_of_lt (h.2.2 id (hkeep.2.1.subset hmem))
    · dsimp only [add_token_to_owner]
      rw [hkeep.1]
      exact Nat.le_succ _
  · exact absurd heqadd (by simp)

/-- One transactional step preserves the invariant and never moves the
allocator backwards (a failed operation leaves the state unchanged). -/
theorem inv_step (s : Ledger) (op : Op) (h : Inv s) :
    Inv (step s op) ∧ s.next_token_id ≤ (step s op).next_token_id := by
  cases op with
  | mint sender tid owner ext =>
    simp only [step, applyOp]
    cases hap : execute_mint s sender tid owner ext with
    | ok s' => exact inv_mint h hap
    | error e => exact ⟨h, Nat.le_refl _⟩
  | batchMint sender mints =>
    simp only [step, applyOp]
    cases hap : execute_batch_mint s sender mints with
    | ok s' => exact inv_batch h hap
    | error e => exact ⟨h, Nat.le_refl _⟩
  | burn sender tid =>
    simp only [step, applyOp]
    cases hap : execute_burn s sender tid with
    | ok s' => exact inv_burn h hap
    | error e => exact ⟨h, Nat.le_refl _⟩
  | transferNft sender recipient tid =>
    simp only [step, applyOp]
    cases hap : execute_transfer_nft s sender recipient tid with
    | ok s' => exact inv_transfer h hap
    | error e => exact ⟨h, Nat.le_refl _⟩
  | synthesize env sender inputs target =>
    simp only [step, applyOp]
    cases hap : execute_synthesize s env sender inputs target with
    | ok s' => exact inv_synthesize h hap
    | error e => exact ⟨h, Nat.le_refl _⟩
  | approve sender spender tid expires =>
    simp only [step, applyOp]
    cases hap : execute_approve s sender spender tid expires with
    | ok s' => exact inv_approve h hap
    | error e => exact ⟨h, Nat.le_refl _⟩

/-- Running any operation sequence preserves the invariant and never moves
the allocator backwards. -/
theorem inv_run :
    ∀ (ops : List Op) (s : Ledger), Inv s →
      Inv (run s ops) ∧ s.next_token_id ≤ (run s ops).next_token_id := by
  intro ops
  induction ops with
  | nil => exact fun s h => ⟨h, Nat.le_refl _⟩
  | cons op rest ih =>
    intro s h
    have h1 := inv_step s op h
    have h2 := ih (step s op) h1.1
    exact ⟨h2.1, Nat.le_trans h1.2 h2.2⟩

/-- The freshly instantiated ledger satisfies the invariant. -/
theorem inv_init (name symbol minter owner : String) (base_uri : Option String) :
    Inv (initLedger name symbol minter owner base_uri) := by
  refine ⟨?_, ?_, ?_⟩ <;> simp [initLedger, keysNat]

/-- A successful synthesis assigns ownership of the pre-state's allocator
value (the output token id) to the caller. -/
theorem synthesize_output_owner {s s' : Ledger} {env : Env} {sender : String}
    {inputs : List Nat} {target : NftKind}
    (hm : execute_synthesize s env sender inputs target = .ok s') :
    slLookup s.next_token_id s'.token_ownership = some sender := by
  unfold execute_synthesize check_contract_paused at hm
  split at hm
  · exact absurd hm (by simp)
  split at hm
  · exact absurd hm (by simp)
  split at hm
  · exact absurd hm (by simp)
  split at hm
  · exact absurd hm (by simp)
  split at hm
  · exact absurd hm (by simp)
  rename_i nid heqadd
  dsimp only at hm
  split at hm
  · exact absurd hm (by simp)
  rename_i new_serial heqser
  split at hm
  · exact absurd hm (by simp)
  rename_i new_total heqtot
  injection hm with hs'
  subst hs'
  dsimp only [add_token_to_owner]
  exact slLookup_slInsert_self _ _ _

/-- C2 amended: from a fresh ledger, after any sequence of operations no two
live tokens share an id and every live id lies strictly below the
next-token-id allocator; the allocator never decreases across any further
operations; and a successful synthesize from any later state assigns its
output id — the later state's allocator value — to the caller, that id being
strictly greater than every id live at the earlier point (so a burned id is
never reassigned as a synthesis output).  An explicit mint, by contrast, may
re-use a burned id, as the counterexample shows. -/
theorem c2_amended_uniqueness (name symbol minter owner : String)
    (base_uri : Option String) (ops more : List Op) :
    (keysNat (run (initLedger name symbol minter owner base_uri) ops).token_ownership).Nodup ∧
    (∀ id ∈ keysNat (run (initLedger name symbol minter owner base_uri) ops).token_meta,
      id < (run (initLedger name symbol minter owner base_uri) ops).next_token_id) ∧
    (run (initLedger name symbol minter owner base_uri) ops).next_token_id ≤
      (run (run (initLedger name symbol minter owner base_uri) ops) more).next_token_id ∧
    (∀ (env : Env) (sender : String) (inputs : List Nat) (target : NftKind)
        (s' : Ledger),
      execute_synthesize (run (run (initLedger name symbol minter owner base_uri) ops) more)
          env sender inputs target = .ok s' →
      slLookup (run (run (initLedger name symbol minter owner base_uri) ops) more).next_token_id
          s'.token_ownership = some sender ∧
      ∀ id ∈ keysNat (run (initLedger name symbol minter owner base_uri) ops).token_meta,
        id < (run (run (initLedger name symbol minter owner base_uri) ops) more).next_token_id) := by
  have h0 := inv_init name symbol minter owner base_uri
  have h1 := inv_run ops (initLedger name symbol minter owner base_uri) h0
  have h2 := inv_run more (run (initLedger name symbol minter owner base_uri) ops) h1.1
  refine ⟨h1.1.2.1, h1.1.2.2, h2.2, ?_⟩
  intro env sender inputs target s' hs
  refine ⟨synthesize_output_owner hs, ?_⟩
  intro id hid
  exact Nat.lt_of_lt_of_le (h1.1.2.2 id hid) h2.2

/-- C2 amended witness: the statement at a concrete two-mint prefix followed
by a successful synthesis of the two clovers into a firefly (output id 3,
owned by the caller, above both earlier live ids). -/
theorem c2_amended_uniqueness_witness :
    (keysNat c2Pre.token_ownership).Nodup ∧
    (∀ id ∈ keysNat c2Pre.token_meta, id < c2Pre.next_token_id) ∧
    (slLookup c2Pre.next_token_id c2Post.token_ownership = some "alice" ∧
      ∀ id ∈ keysNat c2Pre.token_meta, id < c2Pre.next_token_id) := by
  have h := c2_amended_uniqueness "Luckee NFT" "LUCKEE" "minter" "creator" none
    c2Ops []
  have h4 := h.2.2.2 { height := 0, time := 100 } "alice" [1, 2] .firefly c2Post
    (by decide)
  exact ⟨h.1, h.2.1, h4⟩

end Luckee
